import Mathlib

/-!
Shallow embedding of the pygame shmup client (src/main.py) and proofs about
its input state machine, viewport scaler, and scene renderer.

Conventions of the embedding:
* Python floats are modelled as rationals; every float literal appearing in
  the source is exactly representable (0.5, 1.5, 7.5, 10.0) except math.pi,
  which is embedded as the exact rational value of the IEEE-754 double
  closest to pi (mathPi below).
* Python int() truncates toward zero; pyInt models it on rationals.
* math.cos and math.sin are kept abstract: renderer functions are
  parameterised by two functions cosq sinq from rationals to rationals.
* The engine (GameEngine) is opaque; the calls issued to it are reified as
  the EngineCall type, and the input handler is a function from the tick's
  event list and current state to the ordered list of calls it issues.
-/

/-- Python int() truncation toward zero, on rationals. -/
def pyInt (q : ℚ) : ℤ := if 0 ≤ q then ⌊q⌋ else -⌊-q⌋

/-- The exact rational value of the IEEE-754 double math.pi. -/
def mathPi : ℚ := 884279719003555 / 281474976710656

/-- Movement command names accepted by GameEngine.send_command. -/
inductive Command
  | move_up
  | move_down
  | move_left
  | move_right
deriving DecidableEq

/-- Keyboard keys distinguished by InputHandler (pygame key constants). -/
inductive Key
  | w
  | a
  | s
  | d
  | up
  | down
  | left
  | right
  | space
  | escape
  | lalt
  | ralt
  | lshift
  | rshift
  | lctrl
  | rctrl
  | other
deriving DecidableEq

/-- Pygame events consumed by InputHandler.handle. -/
inductive Event
  | quit
  | videoResize (w h : ℤ)
  | keyDown (k : Key)
  | keyUp (k : Key)
  | mouseMotion (x y : ℤ)
  | mouseButtonDown (button : ℕ)
  | mouseButtonUp (button : ℕ)
deriving DecidableEq

/-- Calls issued to the opaque GameEngine, in program order. -/
inductive EngineCall
  | sendCommand (cmd : Command)
  | setMouseTarget (x y : ℚ)
  | startAutofire
  | stopAutofire
  | startShootingTracking
  | stopShootingTracking
  | setAltMode (b : Bool)
  | setBoostMode (b : Bool)
  | setControlMode (b : Bool)
  | update (dt : ℚ)
  | getRenderData
deriving DecidableEq

/-- InputHandler instance state (src/main.py, InputHandler.__init__). -/
structure InputState where
  wPressed : Bool
  sPressed : Bool
  aPressed : Bool
  dPressed : Bool
  altPressed : Bool
  shiftPressed : Bool
  ctrlPressed : Bool
  spacePressed : Bool
  mousePos : ℤ × ℤ
  leftMousePressed : Bool
deriving DecidableEq

/-- Initial InputHandler state: everything released, mouse at the origin. -/
def initInput : InputState :=
  ⟨false, false, false, false, false, false, false, false, (0, 0), false⟩

/-- Renderer instance state: the display surface dimensions (ints, as
pygame surfaces have integer pixel sizes), the stored scale factor, and the
font size it was built with. -/
structure RendererState where
  screenW : ℤ
  screenH : ℤ
  scaleFactor : ℚ
  fontSize : ℤ
deriving DecidableEq

/-- Renderer.__init__ on a surface of the given integer size:
scale_factor = width / base_width, font size int(36 * scale_factor). -/
def mkRenderer (w h : ℤ) : RendererState :=
  ⟨w, h, (w : ℚ) / 800, pyInt (36 * ((w : ℚ) / 800))⟩

/-- The renderer for the logical 800x600 surface (scale factor 1). -/
def rst0 : RendererState := mkRenderer 800 600

/-- Renderer.handle_resize aspect correction: starting from the requested
(w, h), if w/h > 4/3 the height is recomputed as w/(4/3); if w/h < 4/3 the
width is recomputed as h*(4/3); otherwise both are kept.  Returns the
corrected dimensions before int() truncation. -/
def resizeDims (w h : ℤ) : ℚ × ℚ :=
  let actualRatio : ℚ := (w : ℚ) / (h : ℚ)
  let targetRatio : ℚ := 4 / 3
  if actualRatio > targetRatio then ((w : ℚ), (w : ℚ) / targetRatio)
  else if actualRatio < targetRatio then ((h : ℚ) * targetRatio, (h : ℚ))
  else ((w : ℚ), (h : ℚ))

/-- Renderer.handle_resize: the new surface is created at the truncated
corrected size, scale_factor is set from the untruncated corrected width,
and the font is rebuilt at int(36 * scale_factor). -/
def handleResize (w h : ℤ) : RendererState :=
  let d := resizeDims w h
  ⟨pyInt d.1, pyInt d.2, d.1 / 800, pyInt (36 * (d.1 / 800))⟩

/-- InputHandler._handle_key_down: updates level state; space starts
autofire, each modifier key-down issues its mode call unconditionally. -/
def handleKeyDown (st : InputState) (k : Key) : List EngineCall × InputState :=
  match k with
  | .w | .up => ([], { st with wPressed := true })
  | .s | .down => ([], { st with sPressed := true })
  | .a | .left => ([], { st with aPressed := true })
  | .d | .right => ([], { st with dPressed := true })
  | .space => ([EngineCall.startAutofire], { st with spacePressed := true })
  | .lalt | .ralt => ([EngineCall.setAltMode true], { st with altPressed := true })
  | .lshift | .rshift => ([EngineCall.setBoostMode true], { st with shiftPressed := true })
  | .lctrl | .rctrl => ([EngineCall.setControlMode true], { st with ctrlPressed := true })
  | .escape | .other => ([], st)

/-- InputHandler._handle_key_up: clears level state; releasing space stops
autofire and fires the tracking-shot pulse; modifier key-up issues the
matching mode-off call. -/
def handleKeyUp (st : InputState) (k : Key) : List EngineCall × InputState :=
  match k with
  | .w | .up => ([], { st with wPressed := false })
  | .s | .down => ([], { st with sPressed := false })
  | .a | .left => ([], { st with aPressed := false })
  | .d | .right => ([], { st with dPressed := false })
  | .space =>
      ([EngineCall.stopAutofire, EngineCall.startShootingTracking,
        EngineCall.stopShootingTracking], { st with spacePressed := false })
  | .lalt | .ralt => ([EngineCall.setAltMode false], { st with altPressed := false })
  | .lshift | .rshift => ([EngineCall.setBoostMode false], { st with shiftPressed := false })
  | .lctrl | .rctrl => ([EngineCall.setControlMode false], { st with ctrlPressed := false })
  | .escape | .other => ([], st)

/-- Result of processing events: calls issued so far, updated input and
renderer state, and whether the loop keeps running (handle's return value). -/
structure StepResult where
  calls : List EngineCall
  input : InputState
  rend : RendererState
  running : Bool
deriving DecidableEq

/-- One iteration of the event loop body in InputHandler.handle: dispatch a
single pygame event.  QUIT and an escape key-down return running = false
immediately; VIDEORESIZE delegates to the renderer; mouse motion rescales
the device position by screen_width/800 before set_mouse_target; left mouse
press/release mirrors space press/release for firing. -/
def processEvent (st : InputState) (rst : RendererState) (e : Event) : StepResult :=
  match e with
  | .quit => ⟨[], st, rst, false⟩
  | .videoResize w h => ⟨[], st, handleResize w h, true⟩
  | .keyDown k =>
      if k = Key.escape then ⟨[], st, rst, false⟩
      else
        let r := handleKeyDown st k
        ⟨r.1, r.2, rst, true⟩
  | .keyUp k =>
      let r := handleKeyUp st k
      ⟨r.1, r.2, rst, true⟩
  | .mouseMotion x y =>
      let scale : ℚ := (rst.screenW : ℚ) / 800
      ⟨[EngineCall.setMouseTarget ((x : ℚ) / scale) ((y : ℚ) / scale)],
       { st with mousePos := (x, y) }, rst, true⟩
  | .mouseButtonDown b =>
      if b = 1 then
        ⟨[EngineCall.startAutofire], { st with leftMousePressed := true }, rst, true⟩
      else ⟨[], st, rst, true⟩
  | .mouseButtonUp b =>
      if b = 1 then
        ⟨[EngineCall.stopAutofire, EngineCall.startShootingTracking,
          EngineCall.stopShootingTracking],
         { st with leftMousePressed := false }, rst, true⟩
      else ⟨[], st, rst, true⟩

/-- The event loop of InputHandler.handle: process events in order,
stopping (with running = false) at the first quit signal. -/
def handleEvents : InputState → RendererState → List Event → StepResult
  | st, rst, [] => ⟨[], st, rst, true⟩
  | st, rst, e :: rest =>
      let r := processEvent st rst e
      if r.running then
        let r2 := handleEvents r.input r.rend rest
        ⟨r.calls ++ r2.calls, r2.input, r2.rend, r2.running⟩
      else
        ⟨r.calls, r.input, r.rend, false⟩

/-- The continuous-input block at the end of InputHandler.handle: one
movement command per held directional key, in the fixed source order
w (move_up), s (move_down), a (move_left), d (move_right). -/
def moveCalls (st : InputState) : List EngineCall :=
  (if st.wPressed then [EngineCall.sendCommand Command.move_up] else []) ++
  (if st.sPressed then [EngineCall.sendCommand Command.move_down] else []) ++
  (if st.aPressed then [EngineCall.sendCommand Command.move_left] else []) ++
  (if st.dPressed then [EngineCall.sendCommand Command.move_right] else [])

/-- InputHandler.handle: run the event loop; if it survived all events,
append the per-tick movement commands and return True, otherwise return
False immediately (skipping the movement block). -/
def handle (st : InputState) (rst : RendererState) (evs : List Event) : StepResult :=
  let r := handleEvents st rst evs
  if r.running then
    ⟨r.calls ++ moveCalls r.input, r.input, r.rend, true⟩
  else
    ⟨r.calls, r.input, r.rend, false⟩

/-- One iteration of the while-loop body in main(): input handling followed
unconditionally by engine.update(dt) and engine.get_render_data().  The
running flag is the value assigned to the loop variable. -/
def mainTick (st : InputState) (rst : RendererState) (evs : List Event) (dt : ℚ) :
    StepResult :=
  let r := handle st rst evs
  ⟨r.calls ++ [EngineCall.update dt, EngineCall.getRenderData], r.input, r.rend, r.running⟩

/-- The main() while-loop over a sequence of ticks, each a pair of the
tick's event list and its measured dt: the engine-call trace it produces.
The loop condition is re-checked between iterations, so a tick whose input
handling observed the quit signal is the last tick executed. -/
def runMain : InputState → RendererState → List (List Event × ℚ) → List EngineCall
  | _, _, [] => []
  | st, rst, (evs, dt) :: rest =>
      let r := mainTick st rst evs dt
      r.calls ++ (if r.running then runMain r.input r.rend rest else [])

/-- True exactly on the two quit signals: the window-close event and a
key-down on the escape key. -/
def isQuitEvent : Event → Bool
  | .quit => true
  | .keyDown k => decide (k = Key.escape)
  | _ => false

/-- No event in the list is a quit signal. -/
def noQuit (evs : List Event) : Bool := evs.all (fun e => !(isQuitEvent e))

/-- Recogniser for send_command calls. -/
def isSendCommand : EngineCall → Bool
  | .sendCommand _ => true
  | _ => false

/-- Whether a call list contains any send_command call. -/
def hasSendCommand (l : List EngineCall) : Bool := l.any isSendCommand

/-- Number of occurrences of a given engine call in a call list. -/
def countCall (c : EngineCall) (l : List EngineCall) : ℕ :=
  (l.filter (fun x => decide (x = c))).length

/-- Star color tags of the STAR_COLORS table. -/
inductive StarColor
  | white
  | lightBlue
  | cyan
  | lightPurple
  | pink
  | paleYellow
deriving DecidableEq

/-- The STAR_COLORS lookup table (RGB triples). -/
def starColors : StarColor → ℤ × ℤ × ℤ
  | .white => (255, 255, 255)
  | .lightBlue => (173, 216, 230)
  | .cyan => (0, 255, 255)
  | .lightPurple => (221, 160, 221)
  | .pink => (255, 182, 193)
  | .paleYellow => (238, 232, 170)

/-- Star shapes dispatched by Renderer.draw_star. -/
inductive StarShape
  | circle
  | fourPoint
  | sixPoint
deriving DecidableEq

/-- A star record of the scene snapshot. -/
structure StarObj where
  x : ℚ
  y : ℚ
  size : ℚ
  color : StarColor
  shape : StarShape
  twinkle : ℚ
deriving DecidableEq

/-- A projectile record of the scene snapshot. -/
structure Projectile where
  x : ℚ
  y : ℚ
  length : ℚ
  width : ℚ
  rotation : ℚ
  color : ℤ × ℤ × ℤ
deriving DecidableEq

/-- The scene snapshot returned by get_render_data.  The position and
camera fields are required (accessed with mandatory indexing in render);
every other field is optional (accessed with .get and a default). -/
structure Snapshot where
  player_x : ℚ
  player_y : ℚ
  camera_x : ℚ
  camera_y : ℚ
  player_rotation : Option ℚ
  left_gun_angle : Option ℚ
  right_gun_angle : Option ℚ
  left_gun_spool : Option ℚ
  right_gun_spool : Option ℚ
  stars : Option (List StarObj)
  projectiles : Option (List Projectile)
deriving DecidableEq

/-- Drawing primitives emitted by the renderer, in issue order.  Circle
centers and widths are ints where the source passes ints; polygon and line
coordinates stay rational because pygame accepts floats there. -/
inductive DrawCmd
  | fill (color : ℤ × ℤ × ℤ)
  | circle (color : ℤ × ℤ × ℤ) (center : ℤ × ℤ) (radius : ℤ)
  | polygon (color : ℤ × ℤ × ℤ) (points : List (ℚ × ℚ))
  | polygonOutline (color : ℤ × ℤ × ℤ) (points : List (ℚ × ℚ)) (width : ℤ)
  | line (color : ℤ × ℤ × ℤ) (a b : ℚ × ℚ) (width : ℤ)
  | blitText (fontSize : ℤ) (leftSpool rightSpool : ℚ) (pos : ℤ × ℤ)
  | flip
deriving DecidableEq

/-- One RGB channel after twinkle brightness modulation:
int(channel * (0.5 + twinkle * 0.5)). -/
def twinkleChannel (c : ℤ) (t : ℚ) : ℤ :=
  pyInt ((c : ℚ) * (1 / 2 + t * (1 / 2)))

/-- Twinkle brightness modulation applied to each channel of a base color. -/
def twinkleColor (base : ℤ × ℤ × ℤ) (t : ℚ) : ℤ × ℤ × ℤ :=
  (twinkleChannel base.1 t, twinkleChannel base.2.1 t, twinkleChannel base.2.2 t)

/-- The vertex list of an n-spoke star polygon: for i in range n, an outer
vertex at angle i*step - step/2 and radius size, then an inner vertex at
that angle + step/2 and radius size*0.4.  The float literal 0.4 of the
source is 2/5 here; no claim depends on its binary rounding. -/
def starPoints (cosq sinq : ℚ → ℚ) (n : ℕ) (step : ℚ) (cx cy : ℤ) (size : ℚ) :
    List (ℚ × ℚ) :=
  (List.range n).flatMap (fun i =>
    let angle := (i : ℚ) * step - step / 2
    let innerAngle := angle + step / 2
    [((cx : ℚ) + cosq angle * size, (cy : ℚ) + sinq angle * size),
     ((cx : ℚ) + cosq innerAngle * size * (2 / 5),
      (cy : ℚ) + sinq innerAngle * size * (2 / 5))])

/-- Renderer.draw_star: screen position int-truncated after camera
subtraction, twinkle modulation of the table color, then shape dispatch.
four_point uses angle step pi/2; six_point uses pi/3. -/
def drawStar (cosq sinq : ℚ → ℚ) (star : StarObj) (scale camXScaled camYScaled : ℚ) :
    DrawCmd :=
  let screenX := pyInt (star.x * scale - camXScaled)
  let screenY := pyInt (star.y * scale - camYScaled)
  let size := star.size * scale
  let color := twinkleColor (starColors star.color) star.twinkle
  match star.shape with
  | .circle => DrawCmd.circle color (screenX, screenY) (pyInt size)
  | .fourPoint =>
      DrawCmd.polygon color (starPoints cosq sinq 4 (mathPi / 2) screenX screenY size)
  | .sixPoint =>
      DrawCmd.polygon color (starPoints cosq sinq 6 (mathPi / 3) screenX screenY size)

/-- Renderer.draw_gun: the mount offset is rotated by the ship heading, the
mount point is camera-transformed (int applied to the scaled world position
only), and the barrel extends along the gun's own angle for 10*scale. -/
def drawGun (cosq sinq : ℚ → ℚ)
    (px py rot gunAngle offX offY scale camXScaled camYScaled : ℚ) : DrawCmd :=
  let rx := offX * cosq rot - offY * sinq rot
  let ry := offX * sinq rot + offY * cosq rot
  let gunX := px + rx
  let gunY := py + ry
  let screenX : ℚ := (pyInt (gunX * scale) : ℚ) - camXScaled
  let screenY : ℚ := (pyInt (gunY * scale) : ℚ) - camYScaled
  let gunLength := 10 * scale
  DrawCmd.line (0, 255, 0) (screenX, screenY)
    (screenX + cosq gunAngle * gunLength, screenY + sinq gunAngle * gunLength)
    (pyInt ((3 / 2) * scale))

/-- Renderer.draw_projectile: position int-truncated after scaling with no
camera subtraction, drawn as a line of length 0.5x the scaled length along
the projectile rotation, width max(1, int(scaled width * 1.5)). -/
def drawProjectile (cosq sinq : ℚ → ℚ) (p : Projectile) (scale : ℚ) : DrawCmd :=
  let screenX := pyInt (p.x * scale)
  let screenY := pyInt (p.y * scale)
  let bulletLength := p.length * scale * (1 / 2)
  let bulletWidth := max 1 (pyInt (p.width * scale * (3 / 2)))
  let dx := cosq p.rotation * (bulletLength / 2)
  let dy := sinq p.rotation * (bulletLength / 2)
  DrawCmd.line p.color ((screenX : ℚ) - dx, (screenY : ℚ) - dy)
    ((screenX : ℚ) + dx, (screenY : ℚ) + dy) bulletWidth

/-- Renderer.render: background fill, stars, the two guns, the ship
triangle (filled then outlined), projectiles, HUD spool text, flip.
Optional snapshot fields are read with .get defaults: rotation and gun
angles default to -pi/2 (pointing up), lists to empty, spools to 0. -/
def render (cosq sinq : ℚ → ℚ) (rst : RendererState) (d : Snapshot) : List DrawCmd :=
  let playerRotation := d.player_rotation.getD (-(mathPi / 2))
  let scale := rst.scaleFactor
  let camXScaled := d.camera_x * scale
  let camYScaled := d.camera_y * scale
  let starCmds := (d.stars.getD []).map
    (fun s => drawStar cosq sinq s scale camXScaled camYScaled)
  let leftGun := drawGun cosq sinq d.player_x d.player_y playerRotation
    (d.left_gun_angle.getD (-(mathPi / 2))) (15 / 2) 10 scale camXScaled camYScaled
  let rightGun := drawGun cosq sinq d.player_x d.player_y playerRotation
    (d.right_gun_angle.getD (-(mathPi / 2))) (-(15 / 2)) 10 scale camXScaled camYScaled
  let screenX := pyInt (d.player_x * scale - camXScaled)
  let screenY := pyInt (d.player_y * scale - camYScaled)
  let halfW := (15 / 2) * scale
  let halfH := (20 / 2) * scale
  let rotatedVertices := [((0 : ℚ), -halfH), (halfW, halfH), (-halfW, halfH)].map
    (fun v => ((screenX : ℚ) + (v.1 * cosq playerRotation - v.2 * sinq playerRotation),
               (screenY : ℚ) + (v.1 * sinq playerRotation + v.2 * cosq playerRotation)))
  let projCmds := (d.projectiles.getD []).map (fun p => drawProjectile cosq sinq p scale)
  DrawCmd.fill (20, 20, 30) ::
    starCmds ++
    [leftGun, rightGun,
     DrawCmd.polygon (0, 0, 0) rotatedVertices,
     DrawCmd.polygonOutline (0, 255, 0) rotatedVertices (pyInt ((3 / 2) * scale))] ++
    projCmds ++
    [DrawCmd.blitText rst.fontSize (d.left_gun_spool.getD 0) (d.right_gun_spool.getD 0)
       (10, 10),
     DrawCmd.flip]

/-- Modelled from the spec: a snapshot with every optional field replaced
by its documented default, written out explicitly — heading and gun angles
pointing up (-pi/2), lists empty, spools zero.  Used to compare the
renderer's defaulting behaviour against the spec's description. -/
def fillDefaults (d : Snapshot) : Snapshot :=
  ⟨d.player_x, d.player_y, d.camera_x, d.camera_y,
   some (d.player_rotation.getD (-(mathPi / 2))),
   some (d.left_gun_angle.getD (-(mathPi / 2))),
   some (d.right_gun_angle.getD (-(mathPi / 2))),
   some (d.left_gun_spool.getD 0),
   some (d.right_gun_spool.getD 0),
   some (d.stars.getD []),
   some (d.projectiles.getD [])⟩

/-- The first endpoint of a line draw command. -/
def lineA : DrawCmd → ℚ × ℚ
  | .line _ a _ _ => a
  | _ => (0, 0)

/-- The second endpoint of a line draw command. -/
def lineB : DrawCmd → ℚ × ℚ
  | .line _ _ b _ => b
  | _ => (0, 0)

/-- The stroke width of a line draw command. -/
def lineW : DrawCmd → ℤ
  | .line _ _ _ w => w
  | _ => 0

theorem pyInt_of_nonneg {q : ℚ} (h : 0 ≤ q) : pyInt q = ⌊q⌋ := if_pos h

theorem pyInt_coe_of_den_one {q : ℚ} (h : q.den = 1) : (pyInt q : ℚ) = q := by
  obtain ⟨n, rfl⟩ : ∃ n : ℤ, (n : ℚ) = q := ⟨q.num, Rat.coe_int_num_of_den_eq_one h⟩
  unfold pyInt
  split
  · rw [Int.floor_intCast]
  · rw [← Int.cast_neg, Int.floor_intCast, neg_neg]

theorem processEvent_running (st : InputState) (rst : RendererState) (e : Event) :
    (processEvent st rst e).running = !(isQuitEvent e) := by
  cases e with
  | quit => rfl
  | videoResize w h => rfl
  | keyDown k =>
      by_cases h : k = Key.escape
      · simp [processEvent, isQuitEvent, h]
      · simp [processEvent, isQuitEvent, h]
  | keyUp k => rfl
  | mouseMotion x y => rfl
  | mouseButtonDown b => by_cases h : b = 1 <;> simp [processEvent, isQuitEvent, h]
  | mouseButtonUp b => by_cases h : b = 1 <;> simp [processEvent, isQuitEvent, h]

theorem processEvent_quit (st : InputState) (rst : RendererState) (e : Event)
    (h : isQuitEvent e = true) : processEvent st rst e = ⟨[], st, rst, false⟩ := by
  cases e with
  | quit => rfl
  | videoResize w h2 => simp [isQuitEvent] at h
  | keyDown k =>
      have hk : k = Key.escape := by simpa [isQuitEvent] using h
      simp [processEvent, hk]
  | keyUp k => simp [isQuitEvent] at h
  | mouseMotion x y => simp [isQuitEvent] at h
  | mouseButtonDown b => simp [isQuitEvent] at h
  | mouseButtonUp b => simp [isQuitEvent] at h

theorem processEvent_hasSend (st : InputState) (rst : RendererState) (e : Event) :
    hasSendCommand (processEvent st rst e).calls = false := by
  cases e with
  | quit => rfl
  | videoResize w h => rfl
  | keyDown k => cases k <;> rfl
  | keyUp k => cases k <;> rfl
  | mouseMotion x y => rfl
  | mouseButtonDown b =>
      by_cases h : b = 1 <;> simp [processEvent, h, hasSendCommand, isSendCommand]
  | mouseButtonUp b =>
      by_cases h : b = 1 <;> simp [processEvent, h, hasSendCommand, isSendCommand]

theorem handleEvents_cons (st : InputState) (rst : RendererState) (e : Event)
    (rest : List Event) :
    handleEvents st rst (e :: rest) =
      if (processEvent st rst e).running then
        ⟨(processEvent st rst e).calls ++
            (handleEvents (processEvent st rst e).input (processEvent st rst e).rend
              rest).calls,
          (handleEvents (processEvent st rst e).input (processEvent st rst e).rend
            rest).input,
          (handleEvents (processEvent st rst e).input (processEvent st rst e).rend
            rest).rend,
          (handleEvents (processEvent st rst e).input (processEvent st rst e).rend
            rest).running⟩
      else
        ⟨(processEvent st rst e).calls, (processEvent st rst e).input,
          (processEvent st rst e).rend, false⟩ := rfl

theorem hasSendCommand_append (l1 l2 : List EngineCall) :
    hasSendCommand (l1 ++ l2) = (hasSendCommand l1 || hasSendCommand l2) := by
  simp [hasSendCommand, List.any_append]

theorem handleEvents_hasSend (evs : List Event) :
    ∀ st rst, hasSendCommand (handleEvents st rst evs).calls = false := by
  induction evs with
  | nil => intro st rst; rfl
  | cons e rest ih =>
      intro st rst
      rw [handleEvents_cons]
      by_cases h : (processEvent st rst e).running
      · rw [if_pos h]
        simp only [hasSendCommand_append, processEvent_hasSend, ih, Bool.or_self]
      · rw [if_neg h]
        exact processEvent_hasSend st rst e

theorem noQuit_cons {e : Event} {rest : List Event} (h : noQuit (e :: rest) = true) :
    isQuitEvent e = false ∧ noQuit rest = true := by
  simp only [noQuit, List.all_cons, Bool.and_eq_true, Bool.not_eq_true'] at h
  exact ⟨h.1, by simpa [noQuit] using h.2⟩

theorem handleEvents_running_of_noQuit (evs : List Event) :
    ∀ st rst, noQuit evs = true → (handleEvents st rst evs).running = true := by
  induction evs with
  | nil => intro st rst _; rfl
  | cons e rest ih =>
      intro st rst h
      obtain ⟨he, hrest⟩ := noQuit_cons h
      have hrun : (processEvent st rst e).running = true := by
        rw [processEvent_running, he]; rfl
      rw [handleEvents_cons, if_pos hrun]
      exact ih _ _ hrest

theorem handleEvents_quit_append (q : Event) (hq : isQuitEvent q = true)
    (post : List Event) (pre : List Event) :
    ∀ st rst, noQuit pre = true →
      handleEvents st rst (pre ++ q :: post) =
        ⟨(handleEvents st rst pre).calls, (handleEvents st rst pre).input,
          (handleEvents st rst pre).rend, false⟩ := by
  induction pre with
  | nil =>
      intro st rst _
      rw [List.nil_append, handleEvents_cons, processEvent_quit st rst q hq]
      rfl
  | cons e rest ih =>
      intro st rst h
      obtain ⟨he, hrest⟩ := noQuit_cons h
      have hrun : (processEvent st rst e).running = true := by
        rw [processEvent_running, he]; rfl
      rw [List.cons_append, handleEvents_cons, if_pos hrun,
        ih _ _ hrest, handleEvents_cons, if_pos hrun]

theorem countCall_append (c : EngineCall) (l1 l2 : List EngineCall) :
    countCall c (l1 ++ l2) = countCall c l1 + countCall c l2 := by
  simp [countCall, List.filter_append]

theorem countCall_sendCommand_of_hasSend_false {l : List EngineCall}
    (h : hasSendCommand l = false) (c : Command) :
    countCall (EngineCall.sendCommand c) l = 0 := by
  induction l with
  | nil => rfl
  | cons a t ih =>
      simp only [hasSendCommand, List.any_cons, Bool.or_eq_false_iff] at h
      have ha : a ≠ EngineCall.sendCommand c := by
        intro hEq
        rw [hEq] at h
        simp [isSendCommand] at h
      simp only [countCall, List.filter_cons, decide_eq_true_eq]
      rw [if_neg ha]
      exact ih (by simpa [hasSendCommand] using h.2)

theorem countCall_moveCalls_up (st : InputState) :
    countCall (EngineCall.sendCommand Command.move_up) (moveCalls st) =
      if st.wPressed then 1 else 0 := by
  cases hw : st.wPressed <;> cases hs : st.sPressed <;> cases ha : st.aPressed <;>
    cases hd : st.dPressed <;> simp [moveCalls, hw, hs, ha, hd, countCall]

theorem countCall_moveCalls_down (st : InputState) :
    countCall (EngineCall.sendCommand Command.move_down) (moveCalls st) =
      if st.sPressed then 1 else 0 := by
  cases hw : st.wPressed <;> cases hs : st.sPressed <;> cases ha : st.aPressed <;>
    cases hd : st.dPressed <;> simp [moveCalls, hw, hs, ha, hd, countCall]

theorem countCall_moveCalls_left (st : InputState) :
    countCall (EngineCall.sendCommand Command.move_left) (moveCalls st) =
      if st.aPressed then 1 else 0 := by
  cases hw : st.wPressed <;> cases hs : st.sPressed <;> cases ha : st.aPressed <;>
    cases hd : st.dPressed <;> simp [moveCalls, hw, hs, ha, hd, countCall]

theorem countCall_moveCalls_right (st : InputState) :
    countCall (EngineCall.sendCommand Command.move_right) (moveCalls st) =
      if st.dPressed then 1 else 0 := by
  cases hw : st.wPressed <;> cases hs : st.sPressed <;> cases ha : st.aPressed <;>
    cases hd : st.dPressed <;> simp [moveCalls, hw, hs, ha, hd, countCall]

theorem handle_of_noQuit (st : InputState) (rst : RendererState) (evs : List Event)
    (h : noQuit evs = true) :
    handle st rst evs =
      ⟨(handleEvents st rst evs).calls ++ moveCalls (handleEvents st rst evs).input,
        (handleEvents st rst evs).input, (handleEvents st rst evs).rend, true⟩ := by
  have hrun := handleEvents_running_of_noQuit evs st rst h
  unfold handle
  rw [if_pos hrun]

/-- C2: For each of the two firing sources (spacebar and left mouse
button), a press edge issues exactly one start_autofire call, and a release
edge issues exactly stop_autofire, start_shooting_tracking,
stop_shooting_tracking in that order; a press immediately followed by a
release within one tick produces the four-call sequence start_autofire,
stop_autofire, start_shooting_tracking, stop_shooting_tracking, each
exactly once, in that order. -/
theorem fire_call_sequence (st : InputState) (rst : RendererState) :
    (processEvent st rst (Event.keyDown Key.space)).calls =
      [EngineCall.startAutofire] ∧
    (processEvent st rst (Event.keyUp Key.space)).calls =
      [EngineCall.stopAutofire, EngineCall.startShootingTracking,
       EngineCall.stopShootingTracking] ∧
    (processEvent st rst (Event.mouseButtonDown 1)).calls =
      [EngineCall.startAutofire] ∧
    (processEvent st rst (Event.mouseButtonUp 1)).calls =
      [EngineCall.stopAutofire, EngineCall.startShootingTracking,
       EngineCall.stopShootingTracking] ∧
    (handle initInput rst0 [Event.keyDown Key.space, Event.keyUp Key.space]).calls =
      [EngineCall.startAutofire, EngineCall.stopAutofire,
       EngineCall.startShootingTracking, EngineCall.stopShootingTracking] ∧
    (handle initInput rst0 [Event.mouseButtonDown 1, Event.mouseButtonUp 1]).calls =
      [EngineCall.startAutofire, EngineCall.stopAutofire,
       EngineCall.startShootingTracking, EngineCall.stopShootingTracking] :=
  ⟨rfl, rfl, rfl, rfl, rfl, rfl⟩

/-- C3 counterexample: two key-down events for left-alt with no intervening
key-up make the handler issue set_alt_mode(true) twice, so the claim that
repeated key-downs while already held do not re-issue the call is false. -/
theorem modifier_repeat_counterexample :
    (handle initInput rst0 [Event.keyDown Key.lalt, Event.keyDown Key.lalt]).calls =
      [EngineCall.setAltMode true, EngineCall.setAltMode true] ∧
    countCall (EngineCall.setAltMode true)
      (handle initInput rst0 [Event.keyDown Key.lalt, Event.keyDown Key.lalt]).calls
      ≠ 1 := by
  decide

/-- C3 amended: for each edge-triggered modifier (alt, shift/boost,
control; either key variant), every key-down event issues exactly one
set_mode(true) call and every key-up event exactly one set_mode(false)
call; however, repeated key-down events while the modifier is already held
re-issue set_mode(true) once per event — the handler records the held flag
but never consults it to suppress repeats. -/
theorem modifier_calls_behavior (st : InputState) (rst : RendererState) :
    (processEvent st rst (Event.keyDown Key.lalt)).calls =
      [EngineCall.setAltMode true] ∧
    (processEvent st rst (Event.keyDown Key.ralt)).calls =
      [EngineCall.setAltMode true] ∧
    (processEvent st rst (Event.keyUp Key.lalt)).calls =
      [EngineCall.setAltMode false] ∧
    (processEvent st rst (Event.keyUp Key.ralt)).calls =
      [EngineCall.setAltMode false] ∧
    (processEvent st rst (Event.keyDown Key.lshift)).calls =
      [EngineCall.setBoostMode true] ∧
    (processEvent st rst (Event.keyDown Key.rshift)).calls =
      [EngineCall.setBoostMode true] ∧
    (processEvent st rst (Event.keyUp Key.lshift)).calls =
      [EngineCall.setBoostMode false] ∧
    (processEvent st rst (Event.keyUp Key.rshift)).calls =
      [EngineCall.setBoostMode false] ∧
    (processEvent st rst (Event.keyDown Key.lctrl)).calls =
      [EngineCall.setControlMode true] ∧
    (processEvent st rst (Event.keyDown Key.rctrl)).calls =
      [EngineCall.setControlMode true] ∧
    (processEvent st rst (Event.keyUp Key.lctrl)).calls =
      [EngineCall.setControlMode false] ∧
    (processEvent st rst (Event.keyUp Key.rctrl)).calls =
      [EngineCall.setControlMode false] ∧
    (handle initInput rst0 [Event.keyDown Key.lalt, Event.keyDown Key.lalt]).calls =
      [EngineCall.setAltMode true, EngineCall.setAltMode true] :=
  ⟨rfl, rfl, rfl, rfl, rfl, rfl, rfl, rfl, rfl, rfl, rfl, rfl, rfl⟩

/-- C4: on every quit-free tick, each directional key whose level state is
true once the tick's events are processed yields exactly one
send_command(move_dir) call, once per tick rather than once per key event;
and holding the up-key across three consecutive ticks issues exactly one
move_up call on each tick. -/
theorem movement_per_tick (st : InputState) (rst : RendererState) (evs : List Event)
    (h : noQuit evs = true) :
    countCall (EngineCall.sendCommand Command.move_up) (handle st rst evs).calls =
      (if (handle st rst evs).input.wPressed then 1 else 0) ∧
    countCall (EngineCall.sendCommand Command.move_down) (handle st rst evs).calls =
      (if (handle st rst evs).input.sPressed then 1 else 0) ∧
    countCall (EngineCall.sendCommand Command.move_left) (handle st rst evs).calls =
      (if (handle st rst evs).input.aPressed then 1 else 0) ∧
    countCall (EngineCall.sendCommand Command.move_right) (handle st rst evs).calls =
      (if (handle st rst evs).input.dPressed then 1 else 0) ∧
    (handle initInput rst0 [Event.keyDown Key.up]).calls =
      [EngineCall.sendCommand Command.move_up] ∧
    (handle (handle initInput rst0 [Event.keyDown Key.up]).input rst0 []).calls =
      [EngineCall.sendCommand Command.move_up] ∧
    (handle (handle (handle initInput rst0 [Event.keyDown Key.up]).input rst0
        []).input rst0 []).calls =
      [EngineCall.sendCommand Command.move_up] := by
  rw [handle_of_noQuit st rst evs h]
  refine ⟨?_, ?_, ?_, ?_, by decide, by decide, by decide⟩ <;>
    rw [countCall_append, countCall_sendCommand_of_hasSend_false
      (handleEvents_hasSend evs st rst)]
  · rw [countCall_moveCalls_up]; simp
  · rw [countCall_moveCalls_down]; simp
  · rw [countCall_moveCalls_left]; simp
  · rw [countCall_moveCalls_right]; simp

/-- C4 witness: a concrete quit-free tick (key-down on w) in which the held
key produces exactly one move_up command, instantiating movement_per_tick. -/
theorem movement_per_tick_witness :
    countCall (EngineCall.sendCommand Command.move_up)
        (handle initInput rst0 [Event.keyDown Key.w]).calls =
      (if (handle initInput rst0 [Event.keyDown Key.w]).input.wPressed then 1
        else 0) ∧
    countCall (EngineCall.sendCommand Command.move_down)
        (handle initInput rst0 [Event.keyDown Key.w]).calls =
      (if (handle initInput rst0 [Event.keyDown Key.w]).input.sPressed then 1
        else 0) ∧
    countCall (EngineCall.sendCommand Command.move_left)
        (handle initInput rst0 [Event.keyDown Key.w]).calls =
      (if (handle initInput rst0 [Event.keyDown Key.w]).input.aPressed then 1
        else 0) ∧
    countCall (EngineCall.sendCommand Command.move_right)
        (handle initInput rst0 [Event.keyDown Key.w]).calls =
      (if (handle initInput rst0 [Event.keyDown Key.w]).input.dPressed then 1
        else 0) ∧
    (handle initInput rst0 [Event.keyDown Key.up]).calls =
      [EngineCall.sendCommand Command.move_up] ∧
    (handle (handle initInput rst0 [Event.keyDown Key.up]).input rst0 []).calls =
      [EngineCall.sendCommand Command.move_up] ∧
    (handle (handle (handle initInput rst0 [Event.keyDown Key.up]).input rst0
        []).input rst0 []).calls =
      [EngineCall.sendCommand Command.move_up] :=
  movement_per_tick initInput rst0 [Event.keyDown Key.w] (by decide)

/-- C10: on every quit-free tick, the per-tick movement commands are
appended after all calls triggered by the tick's discrete events (none of
which is a send_command), each direction appears at most once, and the
order is the fixed source order move_up, move_down, move_left, move_right
regardless of the order the keys were pressed — pressing d before w still
yields move_up before move_right. -/
theorem movement_order (st : InputState) (rst : RendererState) (evs : List Event)
    (h : noQuit evs = true) :
    (handle st rst evs).calls =
      (handleEvents st rst evs).calls ++
        moveCalls (handleEvents st rst evs).input ∧
    hasSendCommand (handleEvents st rst evs).calls = false ∧
    countCall (EngineCall.sendCommand Command.move_up) (handle st rst evs).calls ≤ 1 ∧
    countCall (EngineCall.sendCommand Command.move_down) (handle st rst evs).calls ≤ 1 ∧
    countCall (EngineCall.sendCommand Command.move_left) (handle st rst evs).calls ≤ 1 ∧
    countCall (EngineCall.sendCommand Command.move_right) (handle st rst evs).calls ≤ 1 ∧
    (handle initInput rst0 [Event.keyDown Key.d, Event.keyDown Key.w]).calls =
      [EngineCall.sendCommand Command.move_up,
       EngineCall.sendCommand Command.move_right] := by
  rw [handle_of_noQuit st rst evs h]
  refine ⟨rfl, handleEvents_hasSend evs st rst, ?_, ?_, ?_, ?_, by decide⟩ <;>
    rw [countCall_append, countCall_sendCommand_of_hasSend_false
      (handleEvents_hasSend evs st rst)]
  · rw [countCall_moveCalls_up]; split <;> simp
  · rw [countCall_moveCalls_down]; split <;> simp
  · rw [countCall_moveCalls_left]; split <;> simp
  · rw [countCall_moveCalls_right]; split <;> simp

/-- C10 witness: instantiation of movement_order at the concrete tick whose
events press d then w, discharging the quit-free hypothesis. -/
theorem movement_order_witness :
    (handle initInput rst0 [Event.keyDown Key.d, Event.keyDown Key.w]).calls =
      (handleEvents initInput rst0 [Event.keyDown Key.d, Event.keyDown Key.w]).calls ++
        moveCalls
          (handleEvents initInput rst0
            [Event.keyDown Key.d, Event.keyDown Key.w]).input ∧
    hasSendCommand
      (handleEvents initInput rst0
        [Event.keyDown Key.d, Event.keyDown Key.w]).calls = false ∧
    countCall (EngineCall.sendCommand Command.move_up)
      (handle initInput rst0 [Event.keyDown Key.d, Event.keyDown Key.w]).calls ≤ 1 ∧
    countCall (EngineCall.sendCommand Command.move_down)
      (handle initInput rst0 [Event.keyDown Key.d, Event.keyDown Key.w]).calls ≤ 1 ∧
    countCall (EngineCall.sendCommand Command.move_left)
      (handle initInput rst0 [Event.keyDown Key.d, Event.keyDown Key.w]).calls ≤ 1 ∧
    countCall (EngineCall.sendCommand Command.move_right)
      (handle initInput rst0 [Event.keyDown Key.d, Event.keyDown Key.w]).calls ≤ 1 ∧
    (handle initInput rst0 [Event.keyDown Key.d, Event.keyDown Key.w]).calls =
      [EngineCall.sendCommand Command.move_up,
       EngineCall.sendCommand Command.move_right] :=
  movement_order initInput rst0 [Event.keyDown Key.d, Event.keyDown Key.w] (by decide)

/-- C1 counterexample: on a tick whose only event is the window-close
event, the loop body still issues update(dt) and get_render_data() after
the quit signal was observed, so the claim that no further engine calls are
issued that tick is false. -/
theorem quit_tick_counterexample :
    runMain initInput rst0 [([Event.quit], 1 / 60)] =
      [EngineCall.update (1 / 60), EngineCall.getRenderData] ∧
    EngineCall.update (1 / 60) ∈ runMain initInput rst0 [([Event.quit], 1 / 60)] ∧
    EngineCall.getRenderData ∈ runMain initInput rst0 [([Event.quit], 1 / 60)] := by
  have h1 : runMain initInput rst0 [([Event.quit], 1 / 60)] =
      [EngineCall.update (1 / 60), EngineCall.getRenderData] := rfl
  refine ⟨h1, ?_, ?_⟩ <;> rw [h1] <;> simp

/-- C1 amended: on the tick in which a quit signal (window-close or an
escape key-down edge) is observed, the event loop stops at the signal
(later events contribute no calls), the input handler issues no movement
commands and no calls beyond those of the quit-free prefix, and the loop
terminates after this tick (subsequent ticks contribute nothing); however
the loop body still issues exactly one update(dt) and one get_render_data()
call on the quit tick after the signal. -/
theorem quit_tick_behavior (st : InputState) (rst : RendererState)
    (pre post : List Event) (q : Event) (dt : ℚ) (rest : List (List Event × ℚ))
    (hq : isQuitEvent q = true) (hpre : noQuit pre = true) :
    runMain st rst ((pre ++ q :: post, dt) :: rest) =
      (handleEvents st rst pre).calls ++
        [EngineCall.update dt, EngineCall.getRenderData] ∧
    hasSendCommand (handleEvents st rst pre).calls = false := by
  refine ⟨?_, handleEvents_hasSend pre st rst⟩
  have hkey := handleEvents_quit_append q hq post pre st rst hpre
  simp only [runMain, mainTick, handle, hkey]
  simp

/-- C1 witness: a concrete quit tick — key-down on w, then the
window-close event, then a key-down on a that is never processed, followed
by a later tick that is never executed — instantiating quit_tick_behavior. -/
theorem quit_tick_behavior_witness :
    runMain initInput rst0
        [([Event.keyDown Key.w] ++ Event.quit :: [Event.keyDown Key.a], 1 / 60),
         ([], 1 / 60)] =
      (handleEvents initInput rst0 [Event.keyDown Key.w]).calls ++
        [EngineCall.update (1 / 60), EngineCall.getRenderData] ∧
    hasSendCommand (handleEvents initInput rst0 [Event.keyDown Key.w]).calls =
      false :=
  quit_tick_behavior initInput rst0 [Event.keyDown Key.w] [Event.keyDown Key.a]
    Event.quit (1 / 60) [([], 1 / 60)] (by decide) (by decide)

theorem pyInt_eq_num {q : ℚ} {n : ℤ} (h0 : 0 ≤ q) (h1 : (n : ℚ) ≤ q)
    (h2 : q < n + 1) : pyInt q = n := by
  rw [pyInt_of_nonneg h0]
  exact Int.floor_eq_iff.mpr ⟨h1, h2⟩

theorem handleResize_1000_500 :
    (handleResize 1000 500).screenW = 1000 ∧ (handleResize 1000 500).screenH = 750 := by
  constructor
  · show pyInt (resizeDims 1000 500).1 = 1000
    norm_num [resizeDims]
    apply pyInt_eq_num <;> norm_num
  · show pyInt (resizeDims 1000 500).2 = 750
    norm_num [resizeDims]
    apply pyInt_eq_num <;> norm_num

/-- C5: for every resize request with positive dimensions, the corrected
viewport dimensions are in exact 4:3 ratio before int() truncation (the
claimed bound within rounding), following the three claimed branches: if
w/h > 4/3 the height becomes w/(4/3) with width unchanged, if w/h < 4/3 the
width becomes h*(4/3) with height unchanged, and if equal both are kept;
the concrete request (1000, 500) yields the final surface (1000, 750). -/
theorem resize_aspect (w h : ℤ) (hw : 0 < w) (hh : 0 < h) :
    (resizeDims w h).1 / (resizeDims w h).2 = 4 / 3 ∧
    ((w : ℚ) / (h : ℚ) > 4 / 3 →
      resizeDims w h = ((w : ℚ), (w : ℚ) / (4 / 3))) ∧
    ((w : ℚ) / (h : ℚ) < 4 / 3 →
      resizeDims w h = ((h : ℚ) * (4 / 3), (h : ℚ))) ∧
    ((w : ℚ) / (h : ℚ) = 4 / 3 → resizeDims w h = ((w : ℚ), (h : ℚ))) ∧
    (handleResize 1000 500).screenW = 1000 ∧
    (handleResize 1000 500).screenH = 750 := by
  have hw0 : (w : ℚ) ≠ 0 := Int.cast_ne_zero.mpr hw.ne'
  have hh0 : (h : ℚ) ≠ 0 := Int.cast_ne_zero.mpr hh.ne'
  refine ⟨?_, ?_, ?_, ?_, handleResize_1000_500.1, handleResize_1000_500.2⟩
  · rcases lt_trichotomy ((w : ℚ) / (h : ℚ)) (4 / 3) with hlt | heq | hgt
    · simp only [resizeDims]
      rw [if_neg (by linarith), if_pos hlt]
      field_simp
      ring
    · simp only [resizeDims]
      rw [if_neg (by linarith), if_neg (by linarith)]
      exact heq
    · simp only [resizeDims]
      rw [if_pos hgt]
      field_simp
      ring
  · intro hgt
    simp only [resizeDims]
    rw [if_pos hgt]
  · intro hlt
    simp only [resizeDims]
    rw [if_neg (by linarith), if_pos hlt]
  · intro heq
    simp only [resizeDims]
    rw [if_neg (by linarith), if_neg (by linarith)]

/-- C5 witness: instantiation of resize_aspect at the concrete resize
request (1000, 500). -/
theorem resize_aspect_witness :
    (resizeDims 1000 500).1 / (resizeDims 1000 500).2 = 4 / 3 ∧
    (((1000 : ℤ) : ℚ) / ((500 : ℤ) : ℚ) > 4 / 3 →
      resizeDims 1000 500 = (((1000 : ℤ) : ℚ), ((1000 : ℤ) : ℚ) / (4 / 3))) ∧
    (((1000 : ℤ) : ℚ) / ((500 : ℤ) : ℚ) < 4 / 3 →
      resizeDims 1000 500 = (((500 : ℤ) : ℚ) * (4 / 3), ((500 : ℤ) : ℚ))) ∧
    (((1000 : ℤ) : ℚ) / ((500 : ℤ) : ℚ) = 4 / 3 →
      resizeDims 1000 500 = (((1000 : ℤ) : ℚ), ((500 : ℤ) : ℚ))) ∧
    (handleResize 1000 500).screenW = 1000 ∧
    (handleResize 1000 500).screenH = 750 :=
  resize_aspect 1000 500 (by decide) (by decide)

/-- C6 counterexample: the resize request (500, 1000) takes the
height-wins branch and produces the fractional corrected width 4000/3; the
surface is created at the truncated width 1333 while scale_factor is set
from the untruncated width, so scale_factor (5/3) differs from
width/800 (1333/800) and the claimed exact equality fails. -/
theorem scale_factor_counterexample :
    (handleResize 500 1000).scaleFactor ≠
      ((handleResize 500 1000).screenW : ℚ) / 800 ∧
    (handleResize 500 1000).scaleFactor = 5 / 3 ∧
    (handleResize 500 1000).screenW = 1333 := by
  have h1 : (handleResize 500 1000).scaleFactor = 5 / 3 := by
    show (resizeDims 500 1000).1 / 800 = 5 / 3
    norm_num [resizeDims]
  have h2 : (handleResize 500 1000).screenW = 1333 := by
    show pyInt (resizeDims 500 1000).1 = 1333
    norm_num [resizeDims]
    apply pyInt_eq_num <;> norm_num
  refine ⟨?_, h1, h2⟩
  rw [h1, h2]
  norm_num

/-- C6 amended: after any resize, scale_factor equals the corrected
(pre-truncation) rational width divided by 800; whenever that corrected
width is an integer — in particular in the width-wins and equal-ratio
branches, where it is the integer request width — scale_factor also equals
the actual surface width divided by 800 exactly. -/
theorem scale_factor_amended (w h : ℤ) (hden : (resizeDims w h).1.den = 1) :
    (handleResize w h).scaleFactor = (resizeDims w h).1 / 800 ∧
    (handleResize w h).scaleFactor = ((handleResize w h).screenW : ℚ) / 800 := by
  constructor
  · rfl
  · show (resizeDims w h).1 / 800 = ((pyInt (resizeDims w h).1 : ℤ) : ℚ) / 800
    rw [pyInt_coe_of_den_one hden]

/-- C6 witness: instantiation of scale_factor_amended at the resize
request (1000, 500), whose corrected width 1000 is integral. -/
theorem scale_factor_amended_witness :
    (handleResize 1000 500).scaleFactor = (resizeDims 1000 500).1 / 800 ∧
    (handleResize 1000 500).scaleFactor =
      ((handleResize 1000 500).screenW : ℚ) / 800 :=
  scale_factor_amended 1000 500 (by norm_num [resizeDims])

theorem twinkleChannel_white_lo : twinkleChannel 255 0 = 127 := by
  unfold twinkleChannel
  apply pyInt_eq_num <;> norm_num

theorem twinkleChannel_white_hi : twinkleChannel 255 1 = 255 := by
  unfold twinkleChannel
  apply pyInt_eq_num <;> norm_num

theorem twinkleColor_white_lo :
    twinkleColor (starColors StarColor.white) 0 = (127, 127, 127) := by
  show (twinkleChannel 255 0, twinkleChannel 255 0, twinkleChannel 255 0) =
    (127, 127, 127)
  rw [twinkleChannel_white_lo]

theorem twinkleColor_white_hi :
    twinkleColor (starColors StarColor.white) 1 = (255, 255, 255) := by
  show (twinkleChannel 255 1, twinkleChannel 255 1, twinkleChannel 255 1) =
    (255, 255, 255)
  rw [twinkleChannel_white_hi]

/-- C7 counterexample: a white star with twinkle 0.0 renders as
(127, 127, 127) — int(255 * 0.5) truncates 127.5 to 127 — while the
claimed lower bound round(0.5 * 255) is 128, so the claimed interval
[round(0.5c), c] does not contain the rendered channel at c = 255. -/
theorem twinkle_round_counterexample :
    twinkleColor (starColors StarColor.white) 0 = (127, 127, 127) ∧
    twinkleChannel 255 0 < round ((1 / 2 : ℚ) * 255) := by
  refine ⟨twinkleColor_white_lo, ?_⟩
  have h2 : round ((1 / 2 : ℚ) * 255) = 128 := by norm_num [round_eq]
  rw [twinkleChannel_white_lo, h2]
  norm_num

/-- C7 amended: the rendered color applies m = 0.5 + 0.5*twinkle uniformly
to each channel as channel' = int(channel*m); for twinkle in [0, 1] and a
nonnegative base channel c the rendered channel lies in [floor(0.5c), c]
(truncation, not rounding to nearest, of 0.5c); a white star with twinkle
0.0 renders as (127, 127, 127) and with twinkle 1.0 as (255, 255, 255). -/
theorem twinkle_bounds (t : ℚ) (c : ℤ) (h0 : 0 ≤ t) (h1 : t ≤ 1) (hc : 0 ≤ c) :
    ⌊(c : ℚ) / 2⌋ ≤ twinkleChannel c t ∧
    twinkleChannel c t ≤ c ∧
    twinkleColor (starColors StarColor.white) 0 = (127, 127, 127) ∧
    twinkleColor (starColors StarColor.white) 1 = (255, 255, 255) := by
  have hcq : (0 : ℚ) ≤ (c : ℚ) := by exact_mod_cast hc
  have hx : (0 : ℚ) ≤ (c : ℚ) * (1 / 2 + t * (1 / 2)) := by nlinarith
  have hfloor : twinkleChannel c t = ⌊(c : ℚ) * (1 / 2 + t * (1 / 2))⌋ := by
    unfold twinkleChannel
    exact pyInt_of_nonneg hx
  refine ⟨?_, ?_, twinkleColor_white_lo, twinkleColor_white_hi⟩
  · rw [hfloor]
    apply Int.floor_le_floor
    nlinarith
  · rw [hfloor]
    calc ⌊(c : ℚ) * (1 / 2 + t * (1 / 2))⌋ ≤ ⌊((c : ℤ) : ℚ)⌋ :=
          Int.floor_le_floor (by nlinarith)
      _ = c := Int.floor_intCast c

/-- C7 witness: instantiation of twinkle_bounds at twinkle 0 and base
channel 255. -/
theorem twinkle_bounds_witness :
    ⌊((255 : ℤ) : ℚ) / 2⌋ ≤ twinkleChannel 255 0 ∧
    twinkleChannel 255 0 ≤ 255 ∧
    twinkleColor (starColors StarColor.white) 0 = (127, 127, 127) ∧
    twinkleColor (starColors StarColor.white) 1 = (255, 255, 255) :=
  twinkle_bounds 0 255 (by norm_num) (by norm_num) (by norm_num)

/-- C8 counterexample: a projectile at logical position (100, 100) drawn at
scale 1 from a snapshot whose camera is at (50, 50) yields a segment
centered at (100, 100) — draw_projectile truncates x*scale without
subtracting the camera — while the claimed device-space transform
x*scale - camera_x*scale gives 50, so the claimed centering is false.  The
segment produced is exactly the line from (97.5, 100) to (102.5, 100) of
width 3, and it is among the rendered commands of that snapshot. -/
theorem projectile_camera_counterexample :
    drawProjectile (fun _ => 1) (fun _ => 0) ⟨100, 100, 10, 2, 0, (255, 0, 0)⟩ 1 =
      DrawCmd.line (255, 0, 0) (195 / 2, 100) (205 / 2, 100) 3 ∧
    ((195 / 2 : ℚ) + 205 / 2) / 2 = 100 ∧
    (100 : ℚ) ≠ 100 * 1 - 50 * 1 ∧
    DrawCmd.line (255, 0, 0) (195 / 2, 100) (205 / 2, 100) 3 ∈
      render (fun _ => 1) (fun _ => 0) ⟨800, 600, 1, 36⟩
        ⟨0, 0, 50, 50, none, none, none, none, none, none,
          some [⟨100, 100, 10, 2, 0, (255, 0, 0)⟩]⟩ := by
  have e1 : pyInt ((100 : ℚ) * 1) = 100 :=
    pyInt_eq_num (by norm_num) (by norm_num) (by norm_num)
  have e2 : pyInt ((2 : ℚ) * 1 * (3 / 2)) = 3 :=
    pyInt_eq_num (by norm_num) (by norm_num) (by norm_num)
  have h1 : drawProjectile (fun _ => 1) (fun _ => 0)
      (⟨100, 100, 10, 2, 0, (255, 0, 0)⟩ : Projectile) 1 =
      DrawCmd.line (255, 0, 0) (195 / 2, 100) (205 / 2, 100) 3 := by
    simp only [drawProjectile, e1, e2]
    norm_num
  have hinf : List.IsInfix
      (((⟨0, 0, 50, 50, none, none, none, none, none, none,
            some [⟨100, 100, 10, 2, 0, (255, 0, 0)⟩]⟩ : Snapshot).projectiles.getD
          []).map
        (fun p => drawProjectile (fun _ => 1) (fun _ => 0) p
          (⟨800, 600, 1, 36⟩ : RendererState).scaleFactor))
      (render (fun _ => 1) (fun _ => 0) ⟨800, 600, 1, 36⟩
        ⟨0, 0, 50, 50, none, none, none, none, none, none,
          some [⟨100, 100, 10, 2, 0, (255, 0, 0)⟩]⟩) := ⟨_, _, rfl⟩
  have hmem : drawProjectile (fun _ => 1) (fun _ => 0)
      (⟨100, 100, 10, 2, 0, (255, 0, 0)⟩ : Projectile) 1 ∈
      render (fun _ => 1) (fun _ => 0) ⟨800, 600, 1, 36⟩
        ⟨0, 0, 50, 50, none, none, none, none, none, none,
          some [⟨100, 100, 10, 2, 0, (255, 0, 0)⟩]⟩ := by
    apply hinf.subset
    simp
  exact ⟨h1, by norm_num, by norm_num, h1 ▸ hmem⟩

/-- C8 amended: every projectile in the snapshot is rendered (the mapped
draw commands form a contiguous run of the render output) as a line
segment centered at (int(x*scale), int(y*scale)) — the scaled position
with no camera subtraction — oriented along the projectile's own rotation,
with effective length 0.5x the scaled length field (assuming the supplied
cosine and sine satisfy the Pythagorean identity at that rotation) and
width 1.5x the scaled width field truncated, with a minimum of 1 device
unit. -/
theorem projectile_draw_amended (cosq sinq : ℚ → ℚ) (p : Projectile) (scale : ℚ)
    (d : Snapshot) (rst : RendererState)
    (htrig : cosq p.rotation ^ 2 + sinq p.rotation ^ 2 = 1) :
    ((lineA (drawProjectile cosq sinq p scale)).1 +
        (lineB (drawProjectile cosq sinq p scale)).1) / 2 =
      (pyInt (p.x * scale) : ℚ) ∧
    ((lineA (drawProjectile cosq sinq p scale)).2 +
        (lineB (drawProjectile cosq sinq p scale)).2) / 2 =
      (pyInt (p.y * scale) : ℚ) ∧
    (lineB (drawProjectile cosq sinq p scale)).1 -
        (lineA (drawProjectile cosq sinq p scale)).1 =
      cosq p.rotation * (p.length * scale * (1 / 2)) ∧
    (lineB (drawProjectile cosq sinq p scale)).2 -
        (lineA (drawProjectile cosq sinq p scale)).2 =
      sinq p.rotation * (p.length * scale * (1 / 2)) ∧
    ((lineB (drawProjectile cosq sinq p scale)).1 -
          (lineA (drawProjectile cosq sinq p scale)).1) ^ 2 +
        ((lineB (drawProjectile cosq sinq p scale)).2 -
          (lineA (drawProjectile cosq sinq p scale)).2) ^ 2 =
      (p.length * scale * (1 / 2)) ^ 2 ∧
    lineW (drawProjectile cosq sinq p scale) =
      max 1 (pyInt (p.width * scale * (3 / 2))) ∧
    List.IsInfix
      ((d.projectiles.getD []).map
        (fun q => drawProjectile cosq sinq q rst.scaleFactor))
      (render cosq sinq rst d) := by
  refine ⟨?_, ?_, ?_, ?_, ?_, ?_, ⟨_, _, rfl⟩⟩
  · simp only [drawProjectile, lineA, lineB]
    ring
  · simp only [drawProjectile, lineA, lineB]
    ring
  · simp only [drawProjectile, lineA, lineB]
    ring
  · simp only [drawProjectile, lineA, lineB]
    ring
  · simp only [drawProjectile, lineA, lineB]
    linear_combination (p.length * scale * (1 / 2)) ^ 2 * htrig
  · simp only [drawProjectile, lineW]

/-- C8 witness: instantiation of projectile_draw_amended at the concrete
projectile (100, 100) with rotation 0, scale 1, and the snapshot and
renderer of the counterexample, with cosine 1 and sine 0 at rotation 0. -/
theorem projectile_draw_amended_witness :
    ((lineA (drawProjectile (fun _ => 1) (fun _ => 0)
          ⟨100, 100, 10, 2, 0, (255, 0, 0)⟩ 1)).1 +
        (lineB (drawProjectile (fun _ => 1) (fun _ => 0)
          ⟨100, 100, 10, 2, 0, (255, 0, 0)⟩ 1)).1) / 2 =
      (pyInt ((100 : ℚ) * 1) : ℚ) ∧
    ((lineA (drawProjectile (fun _ => 1) (fun _ => 0)
          ⟨100, 100, 10, 2, 0, (255, 0, 0)⟩ 1)).2 +
        (lineB (drawProjectile (fun _ => 1) (fun _ => 0)
          ⟨100, 100, 10, 2, 0, (255, 0, 0)⟩ 1)).2) / 2 =
      (pyInt ((100 : ℚ) * 1) : ℚ) ∧
    (lineB (drawProjectile (fun _ => 1) (fun _ => 0)
          ⟨100, 100, 10, 2, 0, (255, 0, 0)⟩ 1)).1 -
        (lineA (drawProjectile (fun _ => 1) (fun _ => 0)
          ⟨100, 100, 10, 2, 0, (255, 0, 0)⟩ 1)).1 =
      1 * ((10 : ℚ) * 1 * (1 / 2)) ∧
    (lineB (drawProjectile (fun _ => 1) (fun _ => 0)
          ⟨100, 100, 10, 2, 0, (255, 0, 0)⟩ 1)).2 -
        (lineA (drawProjectile (fun _ => 1) (fun _ => 0)
          ⟨100, 100, 10, 2, 0, (255, 0, 0)⟩ 1)).2 =
      0 * ((10 : ℚ) * 1 * (1 / 2)) ∧
    ((lineB (drawProjectile (fun _ => 1) (fun _ => 0)
            ⟨100, 100, 10, 2, 0, (255, 0, 0)⟩ 1)).1 -
          (lineA (drawProjectile (fun _ => 1) (fun _ => 0)
            ⟨100, 100, 10, 2, 0, (255, 0, 0)⟩ 1)).1) ^ 2 +
        ((lineB (drawProjectile (fun _ => 1) (fun _ => 0)
            ⟨100, 100, 10, 2, 0, (255, 0, 0)⟩ 1)).2 -
          (lineA (drawProjectile (fun _ => 1) (fun _ => 0)
            ⟨100, 100, 10, 2, 0, (255, 0, 0)⟩ 1)).2) ^ 2 =
      ((10 : ℚ) * 1 * (1 / 2)) ^ 2 ∧
    lineW (drawProjectile (fun _ => 1) (fun _ => 0)
        ⟨100, 100, 10, 2, 0, (255, 0, 0)⟩ 1) =
      max 1 (pyInt ((2 : ℚ) * 1 * (3 / 2))) ∧
    List.IsInfix
      (((⟨0, 0, 50, 50, none, none, none, none, none, none,
            some [⟨100, 100, 10, 2, 0, (255, 0, 0)⟩]⟩ : Snapshot).projectiles.getD
          []).map
        (fun q => drawProjectile (fun _ => 1) (fun _ => 0) q
          (⟨800, 600, 1, 36⟩ : RendererState).scaleFactor))
      (render (fun _ => 1) (fun _ => 0) ⟨800, 600, 1, 36⟩
        ⟨0, 0, 50, 50, none, none, none, none, none, none,
          some [⟨100, 100, 10, 2, 0, (255, 0, 0)⟩]⟩) :=
  projectile_draw_amended (fun _ => 1) (fun _ => 0)
    ⟨100, 100, 10, 2, 0, (255, 0, 0)⟩ 1
    ⟨0, 0, 50, 50, none, none, none, none, none, none,
      some [⟨100, 100, 10, 2, 0, (255, 0, 0)⟩]⟩
    ⟨800, 600, 1, 36⟩ (by norm_num)

/-- C9: for every snapshot containing the required position and camera
fields, rendering is total on missing optional fields and equals rendering
of the same snapshot with the documented defaults filled in explicitly —
heading and gun angles pointing up (-pi/2, the double value of math.pi),
star and projectile lists empty, spool values zero — as written out by
fillDefaults. -/
theorem render_defaults (cosq sinq : ℚ → ℚ) (rst : RendererState) (d : Snapshot) :
    render cosq sinq rst d = render cosq sinq rst (fillDefaults d) := by
  simp [render, fillDefaults]
